import Mathlib

/-!
Verification development for the PyUtrecht streaming-telemetry repository
(src/streaming_demo.py) against its natural-language specification.

The file shallowly embeds, on one hand, the concrete demo script
(string-based interface-name extraction, the 30-second subscribe loops,
the connect / run_full_demo control flow, the per-interface stats field),
and on the other hand the specified core components that the source does
not contain (Path Matcher, Subscription Registry, Update Decoder,
Session State Machine, Event Sink); the latter are modelled from the
spec, as their doc comments state.

Strings from the Python code are modelled as lists of characters, and
Python's `str.split` / `str.strip` are given faithful executable
definitions below.
-/

/-! ## Python string primitives, modelled over `List Char` -/

/-- First index at which `sep` occurs as a contiguous sublist of `s`
(leftmost occurrence), or `none`. Mirrors Python's `str.find`. -/
def findSubIdx (sep : List Char) : List Char → Option Nat
  | [] => if sep = [] then some 0 else none
  | c :: rest =>
    if sep.isPrefixOf (c :: rest) then some 0
    else (findSubIdx sep rest).map (· + 1)

/-- Whether `sep` occurs as a contiguous sublist of `s`.
Mirrors Python's `sep in s`. -/
def hasSub (sep s : List Char) : Bool :=
  (findSubIdx sep s).isSome

/-- Split `s` at the first occurrence of `sep`: the part before and the
part after (the separator removed). `none` when `sep` does not occur. -/
def splitFirst (sep s : List Char) : Option (List Char × List Char) :=
  (findSubIdx sep s).map fun i => (s.take i, s.drop (i + sep.length))

/-- Splitting worker, structurally recursive on a fuel argument so that
it reduces inside the kernel. One unit of fuel is spent per emitted
chunk; since every chunk but the last consumes at least one character of
a non-empty separator, `s.length + 1` units always suffice. -/
def pySplitF (sep : List Char) : Nat → List Char → List (List Char)
  | 0, s => [s]
  | fuel + 1, s =>
    match splitFirst sep s with
    | none => [s]
    | some (pre, post) => pre :: pySplitF sep fuel post

/-- Python's `s.split(sep)` for a non-empty separator: the list of chunks
between consecutive leftmost occurrences of `sep`. For an empty separator
(never used by the source) the whole string is returned as one chunk. -/
def pySplit (sep s : List Char) : List (List Char) :=
  if sep = [] then [s] else pySplitF sep (s.length + 1) s

/-- Python's `s.strip(chars)`: remove from both ends every leading or
trailing character belonging to `chars`. -/
def pyStrip (chars : List Char) (s : List Char) : List Char :=
  ((s.dropWhile (chars.contains ·)).reverse.dropWhile (chars.contains ·)).reverse

/-- Chunk before the first occurrence of `sep` (Python `s.split(sep)[0]`):
the whole string when `sep` does not occur. -/
def takeBefore (sep s : List Char) : List Char :=
  match splitFirst sep s with
  | none => s
  | some (pre, _) => pre

/-- Everything after the first occurrence of `sep`; `s` itself when `sep`
does not occur. -/
def afterFirst (sep s : List Char) : List Char :=
  match splitFirst sep s with
  | none => s
  | some (_, post) => post

/-! ## Interface-name extraction (src/streaming_demo.py lines 191-200 and 280-288)

The source runs, under the guard `if 'name=' in path_str or '[name=' in path_str`,

  iface = path_str.split('name=')[1].split(']')[0].split(',')[0].strip("'\x22")

with "Unknown" on the inner else branch (when `'name='` is absent, which the
guard makes unreachable only together with `'[name='`; since `'[name='`
contains `'name='`, the else branch is in fact dead) and "Interface" as the
`except` fallback. -/

/-- The list of characters of the separator string `name=`. -/
def nameEqSep : List Char := ['n', 'a', 'm', 'e', '=']

/-- The quote characters stripped by the source's `.strip` call. -/
def quoteChars : List Char := ['\'', '\"']

/-- Interface-name extraction exactly as the source computes it:
`path_str.split('name=')[1].split(']')[0].split(',')[0].strip(quotes)`,
with the source's `"Unknown"` fallback when `name=` is absent. The
source's `except` fallback (`"Interface"`) is unreachable because every
step below is total once `name=` occurs in the string. -/
def extractIface (s : List Char) : List Char :=
  if hasSub nameEqSep s then
    pyStrip quoteChars
      (((pySplit [','] (((pySplit [']'] ((pySplit nameEqSep s).getD 1 [])).getD 0 []))).getD 0 []))
  else
    ['U', 'n', 'k', 'n', 'o', 'w', 'n']

/-- The extraction as the claim words it: the substring between the first
occurrence of `name=` and the first following `]`, further truncated at
the first `,`, with surrounding quote characters stripped. -/
def extractIfaceClaimed (s : List Char) : List Char :=
  if hasSub nameEqSep s then
    pyStrip quoteChars (takeBefore [','] (takeBefore [']'] (afterFirst nameEqSep s)))
  else
    ['U', 'n', 'k', 'n', 'o', 'w', 'n']

/-- The extraction with the amendment: the portion after the first
`name=` is additionally truncated at the next occurrence of `name=`
(that is what Python's `split('name=')[1]` yields) before being truncated
at the first `]` and the first `,` and stripped of quotes. -/
def extractIfaceAmended (s : List Char) : List Char :=
  if hasSub nameEqSep s then
    pyStrip quoteChars
      (takeBefore [','] (takeBefore [']'] (takeBefore nameEqSep (afterFirst nameEqSep s))))
  else
    ['U', 'n', 'k', 'n', 'o', 'w', 'n']

/-! ## The subscribe loops (src/streaming_demo.py lines 178-211 and 267-298)

Both streaming loops have the same shape:

    start_time = time.time()
    for response in self.client.subscribe2(subscription):
        update_count += 1
        ... process and print ...
        if time.time() - start_time > 30:
            break

The transport is modelled as the list of elapsed times (seconds since
`start_time`) at which the generator yields successive responses, plus a
flag saying whether, after that list, the generator finishes (remote
close) or simply never yields again. The elapsed-time test is executed
only after a response has been received, which is the behaviour under
scrutiny in the 30-second-cutoff claim. -/

/-- How a subscribe loop run ends. `exhausted`: the generator finished and
the `for` loop ended normally. `cutoff`: the `break` on line 210/297
fired. `blocked`: the generator neither yields nor finishes, so the loop
is still waiting inside `subscribe2` — it has not terminated. Each carries
the value of `update_count` at that point. -/
inductive LoopExit where
  | exhausted (count : Nat)
  | cutoff (count : Nat)
  | blocked (count : Nat)
deriving DecidableEq, Repr

/-- One subscribe loop of the source, driven by the elapsed times at which
responses arrive. `closes` tells whether the generator finishes after the
listed responses. `count` is the current `update_count`. -/
def subscribeLoop : List Int → Bool → Nat → LoopExit
  | [], closes, count => if closes then .exhausted count else .blocked count
  | t :: ts, closes, count =>
    if t > 30 then .cutoff (count + 1) else subscribeLoop ts closes (count + 1)

/-! ## Demo object state and run_full_demo control flow
(src/streaming_demo.py lines 28-35, 47-64, 343-381)

`TelemetryDemo.__init__` stores host, port, `client = None` and
`stats = defaultdict(lambda: dict with rx_bytes, tx_bytes, updates all 0)`
— an empty mapping. `connect` constructs a gNMIclient, assigns it to
`self.client`, then calls `client.connect()`; any exception is caught and
`connect` returns False. `run_full_demo` returns early when `connect`
fails, otherwise runs the five demo steps under a `try` whose
`except Exception` prints and falls through, and a `finally` that closes
the client inside its own `try/except: pass`.

The environment (does the gNMIclient constructor raise? does
`client.connect()` raise? does a demo step raise? does `close()` raise?)
is passed in as booleans. -/

/-- Per-interface statistics record, mirroring the defaultdict default
`{'rx_bytes': 0, 'tx_bytes': 0, 'updates': 0}`. -/
structure IfStats where
  rx_bytes : Nat
  tx_bytes : Nat
  updates : Nat
deriving DecidableEq, Repr

/-- The transport client handle. `connected` records whether
`client.connect()` completed. -/
structure Client where
  connected : Bool
deriving DecidableEq, Repr

/-- The mutable attributes of the `TelemetryDemo` object. -/
structure TelemetryDemo where
  host : List Char
  port : Nat
  client : Option Client
  stats : List (List Char × IfStats)
deriving DecidableEq, Repr

/-- `TelemetryDemo.__init__`: client is None and the stats defaultdict is
empty. -/
def TelemetryDemo.init (host : List Char) (port : Nat) : TelemetryDemo :=
  { host := host, port := port, client := none, stats := [] }

/-- `TelemetryDemo.connect`: construct the client (may raise — then the
assignment to `self.client` never happens), assign it, call
`client.connect()` (may raise). Exceptions are caught and turn into a
`false` return value. Returns the updated object and the boolean result. -/
def TelemetryDemo.connect (d : TelemetryDemo) (ctorOk connOk : Bool) :
    TelemetryDemo × Bool :=
  if ctorOk then
    ({ d with client := some { connected := connOk } }, connOk)
  else
    (d, false)

/-- `demo_capabilities`: reads `self.client` and prints; writes no
attribute. -/
def TelemetryDemo.demo_capabilities (d : TelemetryDemo) : TelemetryDemo := d

/-- `demo_get_single`: reads `self.client` and prints; writes no
attribute. -/
def TelemetryDemo.demo_get_single (d : TelemetryDemo) : TelemetryDemo := d

/-- `demo_subscribe_sample`: runs a subscribe loop over local variables
(`update_count`, `start_time`) and prints; writes no attribute. -/
def TelemetryDemo.demo_subscribe_sample (d : TelemetryDemo) : TelemetryDemo := d

/-- `demo_subscribe_on_change`: runs a subscribe loop over local
variables and prints; writes no attribute. -/
def TelemetryDemo.demo_subscribe_on_change (d : TelemetryDemo) : TelemetryDemo := d

/-- `demo_comparison`: prints only; writes no attribute. -/
def TelemetryDemo.demo_comparison (d : TelemetryDemo) : TelemetryDemo := d

/-- Outcome of one `run_full_demo` call. `closeCalled`: the `finally`
block invoked `self.client.close()`. `raised`: an exception escaped to
the caller of `run_full_demo`. -/
structure RunOutcome where
  demo : TelemetryDemo
  closeCalled : Bool
  raised : Bool
deriving DecidableEq, Repr

/-- `run_full_demo` (lines 343-381): early return when `connect` fails;
otherwise the demo steps run inside `try ... except Exception: print`,
and the `finally` closes the client when it is set, with the `close()`
call wrapped in `try ... except: pass` so that a failing close never
propagates. `demoRaises` makes one of the demo steps raise; `closeRaises`
makes `close()` raise. -/
def run_full_demo (host : List Char) (port : Nat)
    (ctorOk connOk demoRaises closeRaises : Bool) : RunOutcome :=
  let d0 := TelemetryDemo.init host port
  let (d1, ok) := d0.connect ctorOk connOk
  if ok then
    let d2 :=
      if demoRaises then
        d1
      else
        (((((d1.demo_capabilities).demo_get_single).demo_subscribe_sample).demo_subscribe_on_change).demo_comparison)
    match d2.client with
    | some _ =>
      let _closeFailedSilently := closeRaises
      { demo := d2, closeCalled := true, raised := false }
    | none => { demo := d2, closeCalled := false, raised := false }
  else
    { demo := d1, closeCalled := false, raised := false }

/-! ## Path Matcher

Modelled from the spec: the source has no structured Path Matcher (it does
ad-hoc string splitting, embedded above as `extractIface`); spec section
4.1 re-architects it as `match(pattern, concrete_path) -> Option
key_bindings` over parsed segment sequences, walked segment-by-segment,
where a literal segment matches only an identical literal, a
wildcarded-key segment matches any concrete segment with the same name
and binds the key's concrete value, several key predicates per segment
are allowed (value `*` or a concrete string, spec section 3), and the
match fails on length mismatch or any literal mismatch. -/

/-- A key predicate value in a pattern segment: the wildcard `*` or a
concrete string. -/
inductive KeyPat where
  | star
  | lit (v : List Char)
deriving DecidableEq, Repr, Inhabited

/-- A pattern segment: a segment name plus key predicates. A segment with
no predicates is a plain literal. -/
structure PatSeg where
  name : List Char
  preds : List (List Char × KeyPat)
deriving DecidableEq, Repr

/-- A concrete path segment, as received in a Raw Update: a name plus
concrete keys. -/
structure ConcSeg where
  name : List Char
  keys : List (List Char × List Char)
deriving DecidableEq, Repr

/-- Key bindings extracted by a match: predicate name to concrete value. -/
abbrev Bindings : Type := List (List Char × List Char)

/-- Match the key predicates of one pattern segment against the concrete
keys of one concrete segment, binding the concrete value of every
wildcard predicate. Fails when a predicate names an absent key or a
concrete-valued predicate disagrees with the concrete key. -/
def matchPreds (keys : List (List Char × List Char)) :
    List (List Char × KeyPat) → Option Bindings
  | [] => some []
  | (k, kp) :: rest =>
    match keys.lookup k, matchPreds keys rest with
    | some v, some bs =>
      match kp with
      | .star => some ((k, v) :: bs)
      | .lit w => if v = w then some bs else none
    | _, _ => none

/-- Match one pattern segment against one concrete segment. -/
def matchSeg (p : PatSeg) (c : ConcSeg) : Option Bindings :=
  if p.name = c.name then matchPreds c.keys p.preds else none

/-- The Path Matcher contract of spec section 4.1: walk both sequences
segment-by-segment, fail on length mismatch or any segment mismatch,
and return the accumulated key bindings. -/
def matchPath : List PatSeg → List ConcSeg → Option Bindings
  | [], [] => some []
  | p :: ps, c :: cs =>
    match matchSeg p c, matchPath ps cs with
    | some b, some bs => some (b ++ bs)
    | _, _ => none
  | _, _ => none

/-- The bindings one successful segment match must return: for every
wildcard predicate, the concrete value stored at that key (`[]` stands
in for the impossible lookup failure, which a successful match
excludes). -/
def expectedSegBindings (keys : List (List Char × List Char))
    (preds : List (List Char × KeyPat)) : Bindings :=
  preds.filterMap fun (k, kp) =>
    match kp with
    | .star => some (k, (keys.lookup k).getD [])
    | .lit _ => none

/-- The bindings a successful whole-path match must return, segment by
segment. -/
def expectedBindings (P : List PatSeg) (C : List ConcSeg) : Bindings :=
  (P.zip C).flatMap fun (p, c) => expectedSegBindings c.keys p.preds

/-- One key predicate is satisfied by the concrete keys of a segment: a
wildcard predicate names a key present in the segment; a concrete-valued
predicate names a key present with that exact value. -/
def predOk (keys : List (List Char × List Char)) : List Char × KeyPat → Prop
  | (k, .star) => (keys.lookup k).isSome
  | (k, .lit w) => keys.lookup k = some w

/-- One pattern segment is satisfied by one concrete segment: the names
coincide and every key predicate is satisfied. -/
def segOk (p : PatSeg) (c : ConcSeg) : Prop :=
  p.name = c.name ∧ ∀ kv ∈ p.preds, predOk c.keys kv

/-- A whole pattern is satisfied by a concrete path: same length and
segmentwise satisfaction. -/
def pathOk (P : List PatSeg) (C : List ConcSeg) : Prop :=
  List.Forall₂ segOk P C

/-! ## Subscription Registry

Modelled from the spec: the source has no Registry (it builds the wire
subscription dict inline with a hard-coded 5-second interval); spec
section 4.2 specifies `add(pattern, mode, interval?) -> subscription_id`,
failing synchronously with ConfigError when mode is SAMPLE and the
interval is missing or non-positive, with the Registry left unchanged. -/

/-- Delivery mode of a subscription. -/
inductive Mode where
  | sample
  | on_change
deriving DecidableEq, Repr

/-- The error taxonomy of spec section 7 that the embedded operations
raise. -/
inductive CoreError where
  | configError
  | decodeError
  | transportError
deriving DecidableEq, Repr

/-- A registered subscription. -/
structure Subscription where
  id : Nat
  pattern : List PatSeg
  mode : Mode
  interval : Option Int
deriving DecidableEq, Repr

/-- The Subscription Registry: the active subscriptions and the next
fresh id. -/
structure Registry where
  nextId : Nat
  subs : List Subscription
deriving DecidableEq, Repr

/-- The empty Registry. -/
def Registry.empty : Registry := { nextId := 0, subs := [] }

/-- Registry `add`: reject a SAMPLE subscription whose interval is
missing or not strictly positive with a ConfigError; otherwise append the
new subscription and hand out a fresh id. The returned Registry is the
caller's state after the call, so an error leaves it untouched. -/
def Registry.add (r : Registry) (pattern : List PatSeg) (mode : Mode)
    (interval : Option Int) : Except CoreError Nat × Registry :=
  let bad : Bool :=
    mode == Mode.sample &&
      match interval with
      | none => true
      | some i => decide (i ≤ 0)
  if bad then
    (Except.error CoreError.configError, r)
  else
    (Except.ok r.nextId,
      { nextId := r.nextId + 1,
        subs :=
          r.subs ++ [{ id := r.nextId, pattern := pattern, mode := mode,
                       interval := interval }] })

/-! ## Update Decoder / Classifier

Modelled from the spec: the source decodes inline (it formats a
counter as Mbps for display and falls back when the value is not
numeric); spec sections 3, 4.3 and 8 specify `decode(raw_update,
matches) -> sequence of Decoded Event`, one per match, classified by the
trailing path segment name (suffix `-octets` gives COUNTER, `oper-status`
and `admin-status` give STATUS, a path-less control message gives SYNC),
carrying numeric counter values as raw integers with no unit conversion,
and failing a single event with a DecodeError — never the stream — when
the value has an unexpected type for its kind. Trailing names matching
none of the spec's listed rules are mapped to HEARTBEAT here; no claim
depends on that branch. -/

/-- A scalar protocol value, as found in the entries of a structured
mapping. Floats are modelled as rationals. -/
inductive MapVal where
  | int (n : Int)
  | float (q : Rat)
  | str (s : List Char)
  | bool (b : Bool)
deriving DecidableEq, Repr

/-- A raw protocol value: integer, float, string, boolean or structured
mapping (spec section 3). Mapping entries are modelled as scalar leaves,
which is all the spec's examples use. -/
inductive Value where
  | int (n : Int)
  | float (q : Rat)
  | str (s : List Char)
  | bool (b : Bool)
  | map (m : List (List Char × MapVal))
deriving DecidableEq, Repr

/-- A Raw Update: concrete path, value, optional device timestamp. -/
structure RawUpdate where
  path : List ConcSeg
  value : Value
  timestamp : Option Nat
deriving DecidableEq, Repr

/-- The semantic kind of a Decoded Event. -/
inductive Kind where
  | counter
  | status
  | sync
  | heartbeat
deriving DecidableEq, Repr

/-- A Decoded Event (spec section 3). -/
structure DecodedEvent where
  subscription_id : Nat
  bindings : Bindings
  kind : Kind
  value : Value
  receive_time : Nat
deriving DecidableEq, Repr

/-- Classification by trailing path segment name (spec section 4.3). -/
def classify (path : List ConcSeg) : Kind :=
  match path.getLast? with
  | none => Kind.sync
  | some seg =>
    if List.isSuffixOf ['-', 'o', 'c', 't', 'e', 't', 's'] seg.name then
      Kind.counter
    else if seg.name = "oper-status".toList ∨ seg.name = "admin-status".toList then
      Kind.status
    else
      Kind.heartbeat

/-- Extract the numeric payload for a COUNTER-classified update: the
value itself when it is numeric, or — when the update carries a
structured mapping, as in the spec's `\x7b"in-octets": 1542\x7d` example —
the numeric entry stored under the trailing segment's name. Returns
`none` for any non-numeric payload. -/
def numericAt (name : List Char) : Value → Option Value
  | .int n => some (.int n)
  | .float q => some (.float q)
  | .map m =>
    match m.lookup name with
    | some (MapVal.int n) => some (.int n)
    | some (MapVal.float q) => some (.float q)
    | _ => none
  | _ => none

/-- Decode one Raw Update for one match `(subscription_id, bindings)`.
A COUNTER update must carry a numeric payload and a STATUS update a
string payload (directly or in a mapping under the trailing name);
anything else is a DecodeError for this one event. -/
def decodeOne (now : Nat) (u : RawUpdate) (m : Nat × Bindings) :
    Except CoreError DecodedEvent :=
  match classify u.path with
  | Kind.counter =>
    match u.path.getLast? with
    | some seg =>
      match numericAt seg.name u.value with
      | some v =>
        Except.ok
          { subscription_id := m.1, bindings := m.2, kind := Kind.counter,
            value := v, receive_time := now }
      | none => Except.error CoreError.decodeError
    | none => Except.error CoreError.decodeError
  | Kind.status =>
    match u.path.getLast? with
    | some seg =>
      match u.value with
      | .str s =>
        Except.ok
          { subscription_id := m.1, bindings := m.2, kind := Kind.status,
            value := .str s, receive_time := now }
      | .map mp =>
        match mp.lookup seg.name with
        | some (MapVal.str s) =>
          Except.ok
            { subscription_id := m.1, bindings := m.2, kind := Kind.status,
              value := .str s, receive_time := now }
        | _ => Except.error CoreError.decodeError
      | _ => Except.error CoreError.decodeError
    | none => Except.error CoreError.decodeError
  | k =>
    Except.ok
      { subscription_id := m.1, bindings := m.2, kind := k,
        value := u.value, receive_time := now }

/-- Decode one Raw Update against all its matches: one result per match
(spec section 4.3). -/
def decode (now : Nat) (u : RawUpdate) (ms : List (Nat × Bindings)) :
    List (Except CoreError DecodedEvent) :=
  ms.map (decodeOne now u)

/-- The successful payload of a decode result, `none` on DecodeError. -/
def okEvent : Except CoreError DecodedEvent → Option DecodedEvent
  | Except.ok e => some e
  | Except.error _ => none

/-- The streaming loop over a sequence of (raw update, matches) pairs:
every update is decoded, successful events are collected in order, and
DecodeErrors are counted, never aborting the run — the structural
recursion always consumes the whole input. Returns (events, error
count). -/
def processUpdates (now : Nat) :
    List (RawUpdate × List (Nat × Bindings)) → List DecodedEvent × Nat
  | [] => ([], 0)
  | (u, ms) :: rest =>
    let outs := decode now u ms
    let (evs, errs) := processUpdates now rest
    (outs.filterMap okEvent ++ evs,
      (outs.filter fun o => (okEvent o).isNone).length + errs)

/-! ## Event Sink

Modelled from the spec: the source has no Event Sink (it prints inline);
spec section 4.4 specifies a bounded buffer that on overflow drops the
oldest buffered event and increments a dropped-event counter instead of
blocking the transport read loop. The buffer is kept oldest-first. -/

/-- The Event Sink buffer: bounded capacity, buffered events
(oldest first) and the dropped-event counter. -/
structure Sink (α : Type) where
  capacity : Nat
  buffer : List α
  dropped : Nat
deriving DecidableEq, Repr

/-- An empty sink of capacity `cap`. -/
def Sink.empty (α : Type) (cap : Nat) : Sink α :=
  { capacity := cap, buffer := [], dropped := 0 }

/-- Push one event: append it, and when the buffer would exceed the
capacity, drop the oldest buffered event and count the drop. A total
function — the producer is never blocked. -/
def Sink.push {α : Type} (s : Sink α) (e : α) : Sink α :=
  let b := s.buffer ++ [e]
  if s.capacity < b.length then
    { s with buffer := b.tail, dropped := s.dropped + 1 }
  else
    { s with buffer := b }

/-- Push a whole burst of events, in order, with no consumption in
between. -/
def Sink.pushAll {α : Type} (s : Sink α) (l : List α) : Sink α :=
  l.foldl Sink.push s

/-! ## Session State Machine

Modelled from the spec: the source has no session state machine (a
disconnect lands in a catch-all `except` and the demo moves on); spec
section 4.5 specifies DISCONNECTED → CONNECTING → CAPABILITIES_EXCHANGED
→ SUBSCRIBING → STREAMING → (RECONNECTING | CLOSING) → CLOSED, where a
transport-level disconnection in STREAMING moves to RECONNECTING, each
successful reconnect replays CONNECTING → … → STREAMING re-issuing the
full current Registry as a fresh subscribe request, and after the
configured maximum number of consecutive failed attempts the session
reaches CLOSED with a terminal error surfaced to the consumer. -/

/-- The session states of spec section 4.5. -/
inductive SessionState where
  | disconnected
  | connecting
  | capabilitiesExchanged
  | subscribing
  | streaming
  | reconnecting
  | closing
  | closed
deriving DecidableEq, Repr

/-- Observable session happenings: state transitions, wire-level
subscribe requests, reconnect attempts and the terminal error event. -/
inductive SessionEvent where
  | transition (s : SessionState)
  | subscribeRequest (subs : List Subscription)
  | reconnectAttempt (n : Nat)
  | terminalError
deriving DecidableEq, Repr

/-- Effect of a transport-level disconnection on the session state:
in STREAMING it moves to RECONNECTING (spec section 4.5); the spec
attaches no disconnection behaviour to the other states, which are left
unchanged. -/
def onDisconnect : SessionState → SessionState
  | SessionState.streaming => SessionState.reconnecting
  | s => s

/-- The event trace of one successful (re)connection: CONNECTING,
CAPABILITIES_EXCHANGED, SUBSCRIBING with the full current Registry
re-issued as a fresh subscribe request, then STREAMING. -/
def connectSequence (reg : List Subscription) : List SessionEvent :=
  [SessionEvent.transition SessionState.connecting,
   SessionEvent.transition SessionState.capabilitiesExchanged,
   SessionEvent.transition SessionState.subscribing,
   SessionEvent.subscribeRequest reg,
   SessionEvent.transition SessionState.streaming]

/-- The reconnect loop from state RECONNECTING: `attempts` failures have
happened so far; `outcomes` scripts the simulated transport, one boolean
per reconnect attempt. Once `maxAttempts` consecutive failures are
reached the session closes with a terminal error; a successful attempt
replays the connect sequence (resubscribing the full Registry) and
returns to STREAMING. Returns the resulting state and the emitted
events. -/
def reconnectLoop (maxAttempts : Nat) (reg : List Subscription) :
    Nat → List Bool → SessionState × List SessionEvent
  | attempts, outcomes =>
    if maxAttempts ≤ attempts then
      (SessionState.closed,
        [SessionEvent.transition SessionState.closed, SessionEvent.terminalError])
    else
      match outcomes with
      | [] => (SessionState.reconnecting, [])
      | o :: rest =>
        if o then
          (SessionState.streaming,
            SessionEvent.reconnectAttempt (attempts + 1) :: connectSequence reg)
        else
          let (st, evs) := reconnectLoop maxAttempts reg (attempts + 1) rest
          (st, SessionEvent.reconnectAttempt (attempts + 1) :: evs)

/-- Seven pairwise-distinct decoded events used to exercise the Event
Sink at capacity 2 (so that 2 + 5 events are pushed). -/
def sinkDemoEvents : List DecodedEvent :=
  (List.range 7).map fun i =>
    { subscription_id := i, bindings := [], kind := Kind.counter,
      value := Value.int 0, receive_time := 0 }

/-- A one-subscription Registry used to exercise the reconnect policy at
concrete inputs. -/
def demoRegistry : List Subscription :=
  [{ id := 0, pattern := [], mode := Mode.on_change, interval := none }]

/-! # Theorems -/

/-! ## Supporting lemmas on the Python string primitives -/

theorem findSubIdx_isPrefix (sep s : List Char) (i : Nat)
    (h : findSubIdx sep s = some i) : sep.isPrefixOf (s.drop i) := by
  induction s generalizing i with
  | nil =>
    unfold findSubIdx at h
    by_cases hsep : sep = []
    · subst hsep
      simp at h
      subst h
      simp [List.isPrefixOf]
    · simp [hsep] at h
  | cons c rest ih =>
    unfold findSubIdx at h
    split at h
    · simp at h
      subst h
      simpa using ‹sep.isPrefixOf (c :: rest) = true›
    · match hrec : findSubIdx sep rest with
      | none => rw [hrec] at h; simp at h
      | some j =>
        rw [hrec] at h
        simp at h
        subst h
        simpa using ih j hrec

theorem isPrefixOf_length_le {sep t : List Char} (h : sep.isPrefixOf t) :
    sep.length ≤ t.length := by
  rcases List.isPrefixOf_iff_prefix.mp h with ⟨u, hu⟩
  subst hu
  simp

/-- A string containing a non-empty separator is itself non-empty. -/
theorem hasSub_length_pos {sep s : List Char} (hsep : sep ≠ [])
    (h : hasSub sep s = true) : 0 < s.length := by
  unfold hasSub at h
  match hf : findSubIdx sep s with
  | none => rw [hf] at h; simp at h
  | some i =>
    have hpref := findSubIdx_isPrefix sep s i hf
    have hlen := isPrefixOf_length_le hpref
    have hpos : 0 < sep.length := List.length_pos.mpr hsep
    have hdl : (s.drop i).length = s.length - i := List.length_drop i s
    omega

/-- First chunk of a fueled split: the part before the first separator
occurrence, as soon as any fuel is available. -/
theorem pySplitF_head (sep x : List Char) (fuel : Nat) (h : 0 < fuel) :
    (pySplitF sep fuel x).getD 0 [] = takeBefore sep x := by
  match fuel, h with
  | f + 1, _ =>
    unfold pySplitF takeBefore
    match splitFirst sep x with
    | none => rfl
    | some (pre, post) => rfl

/-- Python `s.split(sep)[0]` is the part before the first occurrence of
`sep`. -/
theorem pySplit_head (sep x : List Char) (hsep : sep ≠ []) :
    (pySplit sep x).getD 0 [] = takeBefore sep x := by
  unfold pySplit
  rw [if_neg hsep]
  exact pySplitF_head sep x (x.length + 1) (Nat.succ_pos _)

/-- Python `s.split(sep)[1]`, when `sep` occurs in `s`: the part after
the first occurrence of `sep`, truncated at the next occurrence of
`sep`. -/
theorem pySplit_second (sep x : List Char) (hsep : sep ≠ [])
    (h : hasSub sep x = true) :
    (pySplit sep x).getD 1 [] = takeBefore sep (afterFirst sep x) := by
  have hxpos : 0 < x.length := hasSub_length_pos hsep h
  unfold pySplit
  rw [if_neg hsep]
  unfold hasSub at h
  match hf : findSubIdx sep x with
  | none => rw [hf] at h; simp at h
  | some i =>
    have hsf : splitFirst sep x = some (x.take i, x.drop (i + sep.length)) := by
      unfold splitFirst
      rw [hf]
      rfl
    match hl : x.length, hxpos with
    | n + 1, _ =>
      unfold pySplitF
      rw [hsf]
      simp only [List.getD_cons_succ]
      have hnpos : 0 < n + 1 := Nat.succ_pos n
      rw [pySplitF_head sep _ (n + 1) hnpos]
      unfold afterFirst
      rw [hsf]

/-! ## C9: interface-name extraction -/

/-- C9 counterexample: on the stringified path `xname=aname=b]y` the
source's extraction (which truncates at the next `name=` occurrence,
because `split('name=')[1]` ends at the second occurrence of the
separator) yields `a`, while the claim's description — the substring
between the first `name=` and the first following `]`, truncated at the
first `,` — yields `aname=b`. The claim as stated is therefore false on
this input. -/
theorem extract_iface_claim_counterexample :
    extractIface "xname=aname=b]y".toList = ['a'] ∧
    extractIfaceClaimed "xname=aname=b]y".toList = "aname=b".toList ∧
    extractIface "xname=aname=b]y".toList ≠
      extractIfaceClaimed "xname=aname=b]y".toList := by
  refine ⟨by decide, by decide, by decide⟩

/-- C9 (amended): interface-name extraction is a total deterministic
function; if the string contains `name=`, the result is the substring
after the first occurrence of `name=` truncated at the next occurrence
of `name=` (if any), further truncated at the first `]` and then at the
first `,`, with surrounding single/double quote characters stripped;
on a string without `name=` the fixed placeholder is returned, and being
a total function the extraction never raises. -/
theorem extract_iface_amended_correct (s : List Char) :
    extractIface s = extractIfaceAmended s := by
  unfold extractIface extractIfaceAmended
  by_cases hin : hasSub nameEqSep s
  · rw [if_pos hin, if_pos hin]
    have hne : nameEqSep ≠ [] := by decide
    have hbr : ([']'] : List Char) ≠ [] := by decide
    have hcm : ([','] : List Char) ≠ [] := by decide
    rw [pySplit_second nameEqSep s hne hin, pySplit_head [']'] _ hbr,
      pySplit_head [','] _ hcm]
  · rw [if_neg hin, if_neg hin]

/-! ## C8: the 30-second cutoff of the subscribe loops -/

/-- C8 counterexample: a transport that yields updates 5 and 10 seconds
into the loop and then neither yields nor closes leaves the loop blocked
inside `subscribe2` forever — the elapsed-time test on lines 210 and 297
runs only after a response arrives, so the loop does not terminate once
30 seconds have passed, contradicting the claim's "regardless of whether
further updates arrive". -/
theorem subscribe_loop_cutoff_counterexample :
    subscribeLoop [5, 10] false 0 = LoopExit.blocked 2 := by
  decide

/-- C8 (amended): the loop exits through the 30-second cutoff exactly
when some update arrives more than 30 seconds after the loop started (it
breaks at the first such update); when no update ever arrives after the
cutoff and the transport does not close the stream, the loop never
terminates on its own. -/
theorem subscribe_loop_cutoff_characterization (ts : List Int) (closes : Bool)
    (n : Nat) :
    ((∃ c, subscribeLoop ts closes n = LoopExit.cutoff c) ↔ ∃ t ∈ ts, t > 30) ∧
    (closes = false → (∀ t ∈ ts, t ≤ 30) →
      subscribeLoop ts closes n = LoopExit.blocked (n + ts.length)) := by
  induction ts generalizing n with
  | nil =>
    constructor
    · constructor
      · rintro ⟨c, hc⟩
        unfold subscribeLoop at hc
        cases closes <;> simp_all
      · rintro ⟨t, ht, -⟩
        simp at ht
    · rintro rfl -
      simp [subscribeLoop]
  | cons t ts ih =>
    constructor
    · constructor
      · rintro ⟨c, hc⟩
        unfold subscribeLoop at hc
        by_cases ht : t > 30
        · exact ⟨t, by simp, ht⟩
        · rw [if_neg ht] at hc
          rcases ((ih (n + 1)).1).mp ⟨c, hc⟩ with ⟨u, hu, hu30⟩
          exact ⟨u, by simp [hu], hu30⟩
      · rintro ⟨u, hu, hu30⟩
        unfold subscribeLoop
        by_cases ht : t > 30
        · exact ⟨n + 1, by rw [if_pos ht]⟩
        · rw [if_neg ht]
          rcases List.mem_cons.mp hu with rfl | hmem
          · exact absurd hu30 ht
          · exact ((ih (n + 1)).1).mpr ⟨u, hmem, hu30⟩
    · rintro rfl h30
      unfold subscribeLoop
      rw [if_neg (by simpa using h30 t (by simp))]
      rw [(ih (n + 1)).2 rfl fun u hu => h30 u (by simp [hu])]
      congr 1
      simp
      omega

/-- Witness for the amended C8 theorem at a concrete transport script:
with updates arriving 5, 10 and 31 seconds in, the loop exits via the
cutoff, and with updates only at 5 and 10 seconds and a never-closing
transport it stays blocked. -/
theorem subscribe_loop_cutoff_characterization_witness :
    (∃ c, subscribeLoop [5, 10, 31] true 0 = LoopExit.cutoff c) ∧
    subscribeLoop [5, 10] false 0 = LoopExit.blocked (0 + 2) :=
  ⟨(subscribe_loop_cutoff_characterization [5, 10, 31] true 0).1.mpr
      ⟨31, by decide, by decide⟩,
    (subscribe_loop_cutoff_characterization [5, 10] false 0).2 rfl
      (by decide)⟩

/-! ## C7: release of the transport handle on every exit path -/

/-- C7: for every environment (constructor failure, connect failure, a
demo step raising, `close()` raising), `run_full_demo` never lets an
exception escape to its caller, and the client is closed in the `finally`
block exactly when the transport handle was acquired (i.e. `connect`
succeeded); in particular a failing `close()` is swallowed by the inner
`try/except: pass`, so a failure during release never propagates. -/
theorem run_full_demo_releases_client (host : List Char) (port : Nat)
    (ctorOk connOk demoRaises closeRaises : Bool) :
    (run_full_demo host port ctorOk connOk demoRaises closeRaises).raised = false ∧
    (run_full_demo host port ctorOk connOk demoRaises closeRaises).closeCalled =
      (ctorOk && connOk) := by
  cases ctorOk <;> cases connOk <;> cases demoRaises <;> cases closeRaises <;>
    exact ⟨rfl, rfl⟩

/-! ## C10: the stats mapping is never written after construction -/

/-- C10: the per-interface `stats` mapping is empty at construction and
no operation of the demo object ever writes it — `connect` changes only
`client`, every demo step leaves the whole object unchanged, and a full
`run_full_demo` run under any environment ends with `stats` still equal
to its initial empty state. -/
theorem stats_never_written :
    (∀ host port, (TelemetryDemo.init host port).stats = []) ∧
    (∀ d ctorOk connOk, (TelemetryDemo.connect d ctorOk connOk).1.stats = d.stats) ∧
    (∀ d : TelemetryDemo, d.demo_capabilities.stats = d.stats) ∧
    (∀ d : TelemetryDemo, d.demo_get_single.stats = d.stats) ∧
    (∀ d : TelemetryDemo, d.demo_subscribe_sample.stats = d.stats) ∧
    (∀ d : TelemetryDemo, d.demo_subscribe_on_change.stats = d.stats) ∧
    (∀ d : TelemetryDemo, d.demo_comparison.stats = d.stats) ∧
    (∀ host port ctorOk connOk demoRaises closeRaises,
      (run_full_demo host port ctorOk connOk demoRaises closeRaises).demo.stats = []) := by
  refine ⟨fun _ _ => rfl, ?_, fun _ => rfl, fun _ => rfl, fun _ => rfl,
    fun _ => rfl, fun _ => rfl, ?_⟩
  · intro d ctorOk connOk
    cases ctorOk <;> rfl
  · intro host port ctorOk connOk demoRaises closeRaises
    cases ctorOk <;> cases connOk <;> cases demoRaises <;> cases closeRaises <;> rfl

/-! ## C4: SAMPLE subscriptions with a bad interval are rejected -/

/-- C4: calling the Registry's `add` with mode SAMPLE and an interval
that is missing or not strictly positive fails synchronously with a
ConfigError and returns the Registry unchanged, so the invalid
subscription never reaches the stream. -/
theorem registry_add_sample_bad_interval (r : Registry) (pattern : List PatSeg)
    (interval : Option Int)
    (h : interval = none ∨ ∃ i, interval = some i ∧ i ≤ 0) :
    Registry.add r pattern Mode.sample interval =
      (Except.error CoreError.configError, r) := by
  rcases h with rfl | ⟨i, rfl, hi⟩
  · rfl
  · unfold Registry.add
    simp [hi]

/-- Witness for C4 at concrete inputs: a missing interval and a zero
interval are both rejected, leaving the empty Registry untouched. -/
theorem registry_add_sample_bad_interval_witness :
    Registry.add Registry.empty [] Mode.sample none =
      (Except.error CoreError.configError, Registry.empty) ∧
    Registry.add Registry.empty [] Mode.sample (some 0) =
      (Except.error CoreError.configError, Registry.empty) :=
  ⟨registry_add_sample_bad_interval Registry.empty [] none (Or.inl rfl),
    registry_add_sample_bad_interval Registry.empty [] (some 0)
      (Or.inr ⟨0, rfl, le_refl 0⟩)⟩

/-! ## C5: decoding the spec's counter example -/

/-- C5: decoding a raw update carrying the mapping
`\x7b"in-octets": 1542\x7d` on a path ending `.../counters/in-octets`
against one match with key binding `name = Ethernet1` yields exactly one
COUNTER event whose value is the raw integer 1542 (no unit conversion)
and whose key bindings are exactly `name = Ethernet1`. -/
theorem decode_counter_example :
    decode 99
      { path :=
          [{ name := "interfaces".toList, keys := [] },
           { name := "interface".toList,
             keys := [("name".toList, "Ethernet1".toList)] },
           { name := "state".toList, keys := [] },
           { name := "counters".toList, keys := [] },
           { name := "in-octets".toList, keys := [] }],
        value := Value.map [("in-octets".toList, MapVal.int 1542)],
        timestamp := none }
      [(7, [("name".toList, "Ethernet1".toList)])] =
      [Except.ok
        { subscription_id := 7,
          bindings := [("name".toList, "Ethernet1".toList)],
          kind := Kind.counter,
          value := Value.int 1542,
          receive_time := 99 }] := by
  rfl

/-! ## C1: a malformed update fails only its own event -/

/-- C1: an update whose value is non-numeric although its path is
COUNTER-classified decodes to a DecodeError for that single event; the
streaming loop (which processes updates one after the other and only
collects successful events and counts errors) continues past it, so the
session is never terminated: the rest of the stream is still processed,
and a subsequent well-formed update still produces its normal event. -/
theorem decode_error_isolated (now : Nat) (u g : RawUpdate)
    (m mg : Nat × Bindings) (rest : List (RawUpdate × List (Nat × Bindings)))
    (hcls : classify u.path = Kind.counter)
    (hnn : ∀ seg, u.path.getLast? = some seg → numericAt seg.name u.value = none)
    (ev : DecodedEvent) (hg : decodeOne now g mg = Except.ok ev) :
    decodeOne now u m = Except.error CoreError.decodeError ∧
    processUpdates now ((u, [m]) :: (g, [mg]) :: rest) =
      (ev :: (processUpdates now rest).1, 1 + (processUpdates now rest).2) := by
  have herr : decodeOne now u m = Except.error CoreError.decodeError := by
    cases hl : u.path.getLast? with
    | none => simp [decodeOne, hcls, hl]
    | some seg => simp [decodeOne, hcls, hl, hnn seg hl]
  refine ⟨herr, ?_⟩
  simp only [processUpdates, decode, List.map_cons, List.map_nil, herr, hg]
  simp [okEvent]

/-- Witness for C1 at concrete inputs: a string value under a
COUNTER-classified path (`in-octets`) fails with a DecodeError, while the
stream goes on and the following well-formed counter update still yields
its normal event, with exactly one error counted. -/
theorem decode_error_isolated_witness :
    decodeOne 0
      { path := [{ name := "in-octets".toList, keys := [] }],
        value := Value.str "oops".toList, timestamp := none }
      (1, []) = Except.error CoreError.decodeError ∧
    processUpdates 0
      [({ path := [{ name := "in-octets".toList, keys := [] }],
          value := Value.str "oops".toList, timestamp := none }, [(1, [])]),
       ({ path := [{ name := "in-octets".toList, keys := [] }],
          value := Value.int 1542, timestamp := none },
        [(7, [("name".toList, "Ethernet1".toList)])])] =
      ([{ subscription_id := 7,
          bindings := [("name".toList, "Ethernet1".toList)],
          kind := Kind.counter,
          value := Value.int 1542,
          receive_time := 0 }], 1 + 0) := by
  have h :=
    decode_error_isolated 0
      { path := [{ name := "in-octets".toList, keys := [] }],
        value := Value.str "oops".toList, timestamp := none }
      { path := [{ name := "in-octets".toList, keys := [] }],
        value := Value.int 1542, timestamp := none }
      (1, []) (7, [("name".toList, "Ethernet1".toList)]) []
      (by rfl)
      (fun seg hs => by cases hs; rfl)
      { subscription_id := 7,
        bindings := [("name".toList, "Ethernet1".toList)],
        kind := Kind.counter,
        value := Value.int 1542,
        receive_time := 0 }
      (by rfl)
  exact ⟨h.1, h.2⟩

/-! ## C6: the Event Sink drops the oldest events, counted -/

/-- Closed form of pushing a burst of events into an empty sink of
capacity `B`: the buffer keeps the last `B` events (all of them when
fewer arrived) and the dropped counter holds the overflow count. -/
theorem pushAll_empty_spec {α : Type} (B : Nat) (l : List α) :
    Sink.pushAll (Sink.empty α B) l =
      { capacity := B, buffer := l.drop (l.length - B), dropped := l.length - B } := by
  induction l using List.reverseRecOn with
  | nil => simp [Sink.pushAll, Sink.empty]
  | append_singleton l e ih =>
    have hstep : Sink.pushAll (Sink.empty α B) (l ++ [e]) =
        Sink.push (Sink.pushAll (Sink.empty α B) l) e := by
      simp [Sink.pushAll, List.foldl_append]
    rw [hstep, ih]
    unfold Sink.push
    have hble : l.length - B ≤ l.length := Nat.sub_le _ _
    have hb : l.drop (l.length - B) ++ [e] = (l ++ [e]).drop (l.length - B) := by
      rw [List.drop_append_of_le_length hble]
    by_cases hB : B ≤ l.length
    · rw [hb]
      have hcond : B < (List.drop (l.length - B) (l ++ [e])).length := by
        simp [List.length_drop]
        omega
      rw [if_pos hcond, List.tail_drop]
      have h1 : l.length - B + 1 = (l ++ [e]).length - B := by
        simp
        omega
      rw [h1]
    · have h0 : l.length - B = 0 := by omega
      have hcond : ¬ B < (l.drop (l.length - B) ++ [e]).length := by
        simp [List.length_drop]
        omega
      simp only [if_neg hcond]
      have h2 : (l ++ [e]).length - B = 0 := by simp; omega
      rw [h0] at hb ⊢
      rw [hb, h2]

/-- C6: pushing `B + 5` events into an Event Sink of capacity `B` faster
than they are consumed increments the dropped-event counter exactly 5
times, keeps exactly the last `B` events, and (the events being pairwise
distinct) the 5 oldest events are absent from what the consumer reads;
`Sink.push` is a total function, so the producer is never blocked. -/
theorem sink_drops_oldest (B : Nat) (l : List DecodedEvent)
    (hlen : l.length = B + 5) (hnd : l.Nodup) :
    (Sink.pushAll (Sink.empty DecodedEvent B) l).dropped = 5 ∧
    (Sink.pushAll (Sink.empty DecodedEvent B) l).buffer = l.drop 5 ∧
    ∀ i : Fin l.length, i.val < 5 →
      l.get i ∉ (Sink.pushAll (Sink.empty DecodedEvent B) l).buffer := by
  have hall := pushAll_empty_spec B l
  have h5 : l.length - B = 5 := by omega
  rw [hall, h5]
  refine ⟨rfl, rfl, ?_⟩
  intro i hi hmem
  have hsplit : l.take 5 ++ l.drop 5 = l := List.take_append_drop 5 l
  have hnd' : (l.take 5 ++ l.drop 5).Nodup := by rw [hsplit]; exact hnd
  have hdisj := (List.nodup_append.mp hnd').2.2
  have hmemtake : l.get i ∈ l.take 5 := by
    have hget : l.get i = (l.take 5).get ⟨i.val, by simp [hlen]; omega⟩ := by
      simp [List.getElem_take']
    rw [hget]
    exact List.get_mem _ i.val _
  exact hdisj hmemtake hmem

/-- Witness for C6 at capacity 2 with the seven distinct events of
`sinkDemoEvents`: five drops are counted, the buffer keeps the last two
events, and every one of the five oldest events is gone. -/
theorem sink_drops_oldest_witness :
    (Sink.pushAll (Sink.empty DecodedEvent 2) sinkDemoEvents).dropped = 5 ∧
    (Sink.pushAll (Sink.empty DecodedEvent 2) sinkDemoEvents).buffer =
      sinkDemoEvents.drop 5 ∧
    ∀ i : Fin sinkDemoEvents.length, i.val < 5 →
      sinkDemoEvents.get i ∉
        (Sink.pushAll (Sink.empty DecodedEvent 2) sinkDemoEvents).buffer :=
  sink_drops_oldest 2 sinkDemoEvents (by decide) (by decide)

/-! ## C3: the Path Matcher characterization -/

/-- Predicate matching succeeds exactly when every key predicate of the
segment is satisfied by the concrete keys. -/
theorem matchPreds_isSome (keys : List (List Char × List Char)) :
    ∀ preds, (matchPreds keys preds).isSome = true ↔ ∀ kv ∈ preds, predOk keys kv := by
  intro preds
  induction preds with
  | nil => simp [matchPreds]
  | cons kv rest ih =>
    obtain ⟨k, kp⟩ := kv
    rw [List.forall_mem_cons]
    cases hl : keys.lookup k with
    | none =>
      have hnp : ¬ predOk keys (k, kp) := by
        cases kp <;> simp [predOk, hl]
      simp only [matchPreds, hl]
      simp [hnp]
    | some v =>
      cases hr : matchPreds keys rest with
      | none =>
        have hnr : ¬ ∀ kv ∈ rest, predOk keys kv := by
          rw [← ih]
          simp [hr]
        cases kp with
        | star =>
          simp only [matchPreds, hl, hr]
          constructor
          · intro h
            simp at h
          · rintro ⟨-, hall⟩
            exact absurd hall hnr
        | lit w =>
          simp only [matchPreds, hl, hr]
          constructor
          · intro h
            simp at h
          · rintro ⟨-, hall⟩
            exact absurd hall hnr
      | some bs =>
        have hrest : ∀ kv ∈ rest, predOk keys kv := by
          rw [← ih]
          simp [hr]
        cases kp with
        | star =>
          simp only [matchPreds, hl, hr]
          constructor
          · intro _
            refine ⟨?_, hrest⟩
            simp only [predOk]
            rw [hl]
            rfl
          · intro _
            rfl
        | lit w =>
          by_cases hw : v = w
          · simp only [matchPreds, hl, hr, if_pos hw]
            constructor
            · intro _
              refine ⟨?_, hrest⟩
              simp only [predOk]
              rw [hl, hw]
            · intro _
              rfl
          · simp only [matchPreds, hl, hr, if_neg hw]
            constructor
            · intro h
              simp at h
            · rintro ⟨hpk, -⟩
              simp only [predOk] at hpk
              rw [hl] at hpk
              exact absurd (Option.some.inj hpk) hw

/-- A successful predicate match returns exactly the concrete values
stored at the wildcard keys. -/
theorem matchPreds_eq (keys : List (List Char × List Char)) :
    ∀ preds b, matchPreds keys preds = some b →
      b = expectedSegBindings keys preds := by
  intro preds
  induction preds with
  | nil =>
    intro b h
    simp [matchPreds] at h
    simp [expectedSegBindings, ← h]
  | cons kv rest ih =>
    obtain ⟨k, kp⟩ := kv
    intro b h
    cases hl : keys.lookup k with
    | none =>
      rw [matchPreds, hl] at h
      simp at h
    | some v =>
      cases hr : matchPreds keys rest with
      | none =>
        rw [matchPreds, hl, hr] at h
        simp at h
      | some bs =>
        cases kp with
        | star =>
          simp only [matchPreds, hl, hr] at h
          have hb : b = (k, v) :: bs := (Option.some.inj h).symm
          subst hb
          simp only [expectedSegBindings, List.filterMap_cons]
          rw [hl]
          simpa using ih bs hr
        | lit w =>
          simp only [matchPreds, hl, hr] at h
          by_cases hw : v = w
          · rw [if_pos hw] at h
            have hb : b = bs := (Option.some.inj h).symm
            subst hb
            simp only [expectedSegBindings, List.filterMap_cons]
            simpa using ih b hr
          · rw [if_neg hw] at h
            simp at h

/-- One segment matches exactly when the names coincide and every key
predicate is satisfied. -/
theorem matchSeg_isSome (p : PatSeg) (c : ConcSeg) :
    (matchSeg p c).isSome = true ↔ segOk p c := by
  unfold matchSeg segOk
  by_cases hn : p.name = c.name
  · rw [if_pos hn, matchPreds_isSome]
    simp [hn]
  · rw [if_neg hn]
    simp [hn]

/-- A successful segment match returns exactly the expected bindings. -/
theorem matchSeg_eq (p : PatSeg) (c : ConcSeg) (b : Bindings)
    (h : matchSeg p c = some b) : b = expectedSegBindings c.keys p.preds := by
  unfold matchSeg at h
  by_cases hn : p.name = c.name
  · rw [if_pos hn] at h
    exact matchPreds_eq c.keys p.preds b h
  · rw [if_neg hn] at h
    simp at h

/-- C3: `matchPath P C` returns some key bindings exactly when the two
sequences have the same length and, segment by segment, the names agree,
every concrete-valued key predicate holds with that exact value and every
wildcard-key predicate names a key present in the concrete segment
(`pathOk`, which subsumes failure on length mismatch and on any literal
mismatch); and the bindings returned are exactly the concrete values
stored at the wildcard keys (`expectedBindings`). -/
theorem matchPath_characterization (P : List PatSeg) (C : List ConcSeg) :
    ((matchPath P C).isSome = true ↔ pathOk P C) ∧
    (∀ b, matchPath P C = some b → b = expectedBindings P C) := by
  induction P generalizing C with
  | nil =>
    cases C with
    | nil =>
      constructor
      · simp [matchPath, pathOk]
      · intro b h
        simp [matchPath] at h
        simp [expectedBindings, ← h]
    | cons c cs =>
      constructor
      · simp [matchPath, pathOk]
      · intro b h
        simp [matchPath] at h
  | cons p ps ih =>
    cases C with
    | nil =>
      constructor
      · simp [matchPath, pathOk]
      · intro b h
        simp [matchPath] at h
    | cons c cs =>
      have hiff : pathOk (p :: ps) (c :: cs) ↔ segOk p c ∧ pathOk ps cs :=
        List.forall₂_cons
      constructor
      · rw [hiff]
        cases hs : matchSeg p c with
        | none =>
          have hns : ¬ segOk p c := by
            rw [← matchSeg_isSome]
            simp [hs]
          simp only [matchPath, hs]
          simp [hns]
        | some b1 =>
          have hsok : segOk p c := by
            rw [← matchSeg_isSome]
            simp [hs]
          cases hrest : matchPath ps cs with
          | none =>
            have hnp : ¬ pathOk ps cs := by
              rw [← (ih cs).1]
              simp [hrest]
            simp only [matchPath, hs, hrest]
            simp [hnp]
          | some bs =>
            have hp : pathOk ps cs := by
              rw [← (ih cs).1]
              simp [hrest]
            simp only [matchPath, hs, hrest]
            simp [hsok, hp]
      · intro b h
        cases hs : matchSeg p c with
        | none =>
          simp only [matchPath, hs] at h
          simp at h
        | some b1 =>
          cases hrest : matchPath ps cs with
          | none =>
            simp only [matchPath, hs, hrest] at h
            simp at h
          | some bs =>
            simp only [matchPath, hs, hrest] at h
            have hb : b = b1 ++ bs := (Option.some.inj h).symm
            subst hb
            have e1 := matchSeg_eq p c b1 hs
            have e2 := (ih cs).2 bs hrest
            rw [e1, e2]
            simp [expectedBindings]

/-- Witness for C3 at a concrete pattern and path: the wildcard pattern
`interfaces/interface[name=*]` matches the concrete path
`interfaces/interface[name=Ethernet1]` (the match evaluates to some by
`rfl`), and the bindings it returns are the expected `name = Ethernet1`. -/
theorem matchPath_characterization_witness :
    pathOk
      [{ name := "interfaces".toList, preds := [] },
       { name := "interface".toList, preds := [("name".toList, KeyPat.star)] }]
      [{ name := "interfaces".toList, keys := [] },
       { name := "interface".toList,
         keys := [("name".toList, "Ethernet1".toList)] }] ∧
    ([("name".toList, "Ethernet1".toList)] : Bindings) =
      expectedBindings
        [{ name := "interfaces".toList, preds := [] },
         { name := "interface".toList, preds := [("name".toList, KeyPat.star)] }]
        [{ name := "interfaces".toList, keys := [] },
         { name := "interface".toList,
           keys := [("name".toList, "Ethernet1".toList)] }] :=
  ⟨(matchPath_characterization _ _).1.mp (by rfl),
    (matchPath_characterization _ _).2 _ (by rfl)⟩

/-! ## C2: disconnection, resubscription and the reconnect ceiling -/

/-- When every reconnect attempt fails, the loop started after `a`
previous failures with a ceiling of `a + k` closes the session with a
terminal error and never re-enters STREAMING. -/
theorem reconnectLoop_all_fail (reg : List Subscription) :
    ∀ (k a : Nat),
      (reconnectLoop (a + k) reg a (List.replicate k false)).1 = SessionState.closed ∧
      SessionEvent.terminalError ∈ (reconnectLoop (a + k) reg a (List.replicate k false)).2 ∧
      SessionEvent.transition SessionState.streaming ∉
        (reconnectLoop (a + k) reg a (List.replicate k false)).2 := by
  intro k
  induction k with
  | zero =>
    intro a
    simp [reconnectLoop]
  | succ k ih =>
    intro a
    have hc : ¬ (a + (k + 1) ≤ a) := by omega
    have harg : a + (k + 1) = (a + 1) + k := by omega
    simp only [List.replicate_succ, reconnectLoop, if_neg hc]
    rw [harg]
    rcases hres : reconnectLoop ((a + 1) + k) reg (a + 1) (List.replicate k false)
      with ⟨st, evs⟩
    have h := ih (a + 1)
    rw [hres] at h
    refine ⟨h.1, List.mem_cons_of_mem _ h.2.1, ?_⟩
    intro hmem
    rcases List.mem_cons.mp hmem with heq | hmem2
    · simp at heq
    · exact h.2.2 hmem2

/-- A reconnect attempt that succeeds after `k` failures (still below the
ceiling) replays the connect sequence, re-issuing the full Registry as a
fresh subscribe request, and returns the session to STREAMING. -/
theorem reconnectLoop_success (reg : List Subscription) :
    ∀ (k a M : Nat), a + k < M →
      (reconnectLoop M reg a (List.replicate k false ++ [true])).1 =
        SessionState.streaming ∧
      SessionEvent.subscribeRequest reg ∈
        (reconnectLoop M reg a (List.replicate k false ++ [true])).2 := by
  intro k
  induction k with
  | zero =>
    intro a M h
    have hc : ¬ (M ≤ a) := by omega
    simp only [List.replicate_zero, List.nil_append, reconnectLoop, if_neg hc]
    exact ⟨rfl, by simp [connectSequence]⟩
  | succ k ih =>
    intro a M h
    have hc : ¬ (M ≤ a) := by omega
    simp only [List.replicate_succ, List.cons_append, reconnectLoop, if_neg hc]
    rcases hres : reconnectLoop M reg (a + 1) (List.replicate k false ++ [true])
      with ⟨st, evs⟩
    have h2 := ih (a + 1) M (by omega)
    rw [hres] at h2
    exact ⟨h2.1, List.mem_cons_of_mem _ h2.2⟩

/-- C2: a transport-level disconnection in STREAMING moves the session to
RECONNECTING; a reconnect attempt that succeeds before the ceiling `M`
re-issues the full current Registry as a fresh subscribe request and
returns to STREAMING; and after `M` consecutive failed attempts the
session reaches CLOSED with a terminal error surfaced to the consumer,
never having re-entered STREAMING (so STREAMING to RECONNECTING is
visited exactly once in that scenario). -/
theorem session_reconnect_policy (M : Nat) (reg : List Subscription) :
    onDisconnect SessionState.streaming = SessionState.reconnecting ∧
    (∀ k, k < M →
      (reconnectLoop M reg 0 (List.replicate k false ++ [true])).1 =
        SessionState.streaming ∧
      SessionEvent.subscribeRequest reg ∈
        (reconnectLoop M reg 0 (List.replicate k false ++ [true])).2) ∧
    (reconnectLoop M reg 0 (List.replicate M false)).1 = SessionState.closed ∧
    SessionEvent.terminalError ∈ (reconnectLoop M reg 0 (List.replicate M false)).2 ∧
    SessionEvent.transition SessionState.streaming ∉
      (reconnectLoop M reg 0 (List.replicate M false)).2 := by
  have hall := reconnectLoop_all_fail reg M 0
  rw [Nat.zero_add] at hall
  exact ⟨rfl, fun k hk => reconnectLoop_success reg k 0 M (by omega),
    hall.1, hall.2.1, hall.2.2⟩

/-- Witness for C2 with ceiling 2 and the one-subscription
`demoRegistry`: one failure followed by a success resubscribes and
streams again, and two consecutive failures close the session with a
terminal error. -/
theorem session_reconnect_policy_witness :
    onDisconnect SessionState.streaming = SessionState.reconnecting ∧
    (reconnectLoop 2 demoRegistry 0 (List.replicate 1 false ++ [true])).1 =
      SessionState.streaming ∧
    SessionEvent.subscribeRequest demoRegistry ∈
      (reconnectLoop 2 demoRegistry 0 (List.replicate 1 false ++ [true])).2 ∧
    (reconnectLoop 2 demoRegistry 0 (List.replicate 2 false)).1 =
      SessionState.closed ∧
    SessionEvent.terminalError ∈
      (reconnectLoop 2 demoRegistry 0 (List.replicate 2 false)).2 := by
  have h := session_reconnect_policy 2 demoRegistry
  have h1 := h.2.1 1 (by decide)
  exact ⟨h.1, h1.1, h1.2, h.2.2.1, h.2.2.2.1⟩
